import Mathlib

/-!
Verification development for the `sod/di` dependency-injection container
(src/di.js).  The JavaScript source is shallowly embedded: injectors become
records, the registry and caches become association lists over string keys,
JavaScript values become the inductive `Val` (with `vnull` as the reserved
not-found sentinel and `vundef` as the absent value), and the mutually
recursive resolution engine (`di.get`, the import loop, `di`/`di.invoke`, and
argument resolution) becomes a single fuel-indexed interpreter `run` over a
request type, so that every definition is executable and kernel-reducible.
-/

/-- JavaScript runtime values as far as the container observes them.
`vnull` is JS `null` (the not-found sentinel), `vundef` is JS `undefined`,
`vdi id` is an injector function, `vfn fid` a plain function from the world's
function table, and `vfactory fid` a `di.callback` wrapper carrying the
`__di_factory` tag (src/di.js:287-288). -/
inductive Val where
  | vnull
  | vundef
  | vbool (b : Bool)
  | vnum (n : Nat)
  | vstr (s : String)
  | vdi (id : Nat)
  | vfn (fid : Nat)
  | vfactory (fid : Nat)
deriving DecidableEq, Repr

/-- JavaScript truthiness of a `Val` (objects and functions are truthy). -/
def jsTruthy : Val → Bool
  | Val.vnull => false
  | Val.vundef => false
  | Val.vbool b => b
  | Val.vnum n => n != 0
  | Val.vstr s => s != ""
  | Val.vdi _ => true
  | Val.vfn _ => true
  | Val.vfactory _ => true

/-- The wrapped function index of a value carrying the `__di_factory` tag
(src/di.js:5, 288), when it carries one. -/
def factoryFid? : Val → Option Nat
  | Val.vfactory fid => some fid
  | _ => none

/-- Whether a value carries the `__di_factory` tag. -/
def isFactoryVal (v : Val) : Bool :=
  (factoryFid? v).isSome

/-- The JS `typeof v === "function"` test: injectors, plain functions and
callback wrappers are all functions. -/
def jsIsFunction : Val → Bool
  | Val.vdi _ => true
  | Val.vfn _ => true
  | Val.vfactory _ => true
  | _ => false

/-- A defunctionalized JS function: its declared parameter names (what
`getParameterNames` extracts) and its result on the injected arguments. -/
structure Fn where
  params : List String
  ret : List Val → Val

/-- Structured error corresponding to `DependencyInjectionError`
(src/di.js:396-427): taxonomy `code` (101 COULD_NOT_REQUIRE,
102 NOT_A_FUNCTION, 103 DEPENDENCY_NOT_FOUND), the owning injector's
name, and the raw message passed to the constructor. -/
structure DiError where
  code : Nat
  diName : String
  msg : String
deriving DecidableEq, Repr

/-- Interpreter-level outcome: a thrown `DiError`, or fuel exhaustion of the
embedding (the JS source would recurse without bound there). -/
inductive Err where
  | ofDi (e : DiError)
  | outOfFuel
deriving DecidableEq, Repr

/-! Association lists model the plain JS objects used for `_registers`,
`_importCache` and custom-override maps: key lookup, `hasOwnProperty`,
and keyed assignment. -/

/-- Lookup in a string-keyed object. -/
def aget? : List (String × Val) → String → Option Val
  | [], _ => none
  | (k, v) :: rest, key => if k = key then some v else aget? rest key

/-- The `hasOwnProperty` test. -/
def ahas (m : List (String × Val)) (key : String) : Bool :=
  (aget? m key).isSome

/-- Keyed assignment `m[key] = v` (overwrites an existing key). -/
def aset : List (String × Val) → String → Val → List (String × Val)
  | [], key, v => [(key, v)]
  | (k, v') :: rest, key, v =>
      if k = key then (key, v) :: rest else (k, v') :: aset rest key v

/-- Adding a key to a JS object used as a set (`_public`, `_names`). -/
def addKey (l : List String) (key : String) : List String :=
  if key ∈ l then l else l ++ [key]

/-! Name normalization (src/di.js:7-8, 64, 252):
`.replace(/[^a-z0-9]+/ig, '').replace(/^[0-9]+/, '').toLowerCase()`. -/

/-- Membership in the character class `[a-zA-Z0-9]` kept by `limitCharacters`. -/
def isAlnumChar (c : Char) : Bool :=
  ('a' ≤ c && c ≤ 'z') || ('A' ≤ c && c ≤ 'Z') || ('0' ≤ c && c ≤ '9')

/-- ASCII lowercasing of one character, as `toLowerCase` acts on the
alphanumeric names the container deals with. -/
def asciiLower (c : Char) : Char :=
  if 'A' ≤ c && c ≤ 'Z' then Char.ofNat (c.toNat + 32) else c

/-- `String.prototype.toLowerCase` on a name. -/
def lowerStr (s : String) : String :=
  String.mk (s.toList.map asciiLower)

/-- The `limitCharacters` replace: delete every character outside [a-zA-Z0-9]. -/
def keepAlnum (s : String) : String :=
  String.mk (s.toList.filter isAlnumChar)

/-- The `appendedNumbers` replace: delete a leading run of digits. -/
def dropLeadingDigits (s : String) : String :=
  String.mk (s.toList.dropWhile Char.isDigit)

/-- Full name normalization applied to injector names (src/di.js:64) and
dependency names at registration (src/di.js:252). -/
def normalizeName (s : String) : String :=
  lowerStr (dropLeadingDigits (keepAlnum s))

/-- One injector's closure state (src/di.js:62-79 plus the constructor
argument `imports`, which `getImportNames` at src/di.js:354-358 reads). -/
structure Inj where
  /-- sanitized injector name (src/di.js:64) -/
  diName : String
  /-- the raw `name` argument of `diFactory` (used verbatim in one message) -/
  rawName : String
  /-- `_registers` (src/di.js:67) -/
  registers : List (String × Val)
  /-- keys of `_public` (src/di.js:76) -/
  pub : List String
  /-- keys of `_names` (src/di.js:79) -/
  names : List String
  /-- `_imports`, as indices into the world (src/di.js:70) -/
  importList : List Nat
  /-- `_importCache` (src/di.js:73) -/
  importCache : List (String × Val)
  /-- the `imports` argument the injector was constructed with -/
  ctorImports : List Nat
deriving DecidableEq, Repr

/-- The whole mutable state: all injectors (indexed by creation order), the
function table, the order in which table functions were applied
(`fn.apply` at src/di.js:111), and the errors delivered to supplied
`onError` callbacks. -/
structure World where
  injs : List Inj
  funcs : List Fn
  callLog : List Nat
  errLog : List DiError

/-- Fetch an injector by index. -/
def getInj? (w : World) (i : Nat) : Option Inj :=
  w.injs[i]?

/-- Replace an injector by index. -/
def setInj (w : World) (i : Nat) (inj : Inj) : World :=
  { w with injs := w.injs.set i inj }

/-- The `diName` of an injector, for error construction. -/
def dnOf (w : World) (i : Nat) : String :=
  match getInj? w i with
  | some self => self.diName
  | none => ""

/-- `getMissingDependencies` (src/di.js:15-19): map each parameter name to
itself when its injection is the `null` sentinel (else to `null`), extract
the truthy entries with lodash `_.remove`, and join them with a comma.
Modelled at its only call site, where `dependencies` has one entry per
parameter, so the indexed access becomes a zip. -/
def getMissingDependencies (args : List String) (deps : List Val) : String :=
  String.intercalate ", "
    (((args.zip deps).map
        (fun p => if p.2 = Val.vnull then Val.vstr p.1 else Val.vnull)).filterMap
      (fun v => match v with
        | Val.vstr s => if s = "" then none else some s
        | _ => none))

/-- `handleError` (src/di.js:26-31) at call sites that afterwards
`return null`: with a function handler the error is delivered (recorded in
the world's `errLog`) and the operation yields the sentinel; without one the
error is thrown. -/
def handleErrorV (hasH : Bool) (e : DiError) (w : World) :
    Except Err (Val × World) :=
  if hasH then Except.ok (Val.vnull, { w with errLog := w.errLog ++ [e] })
  else Except.error (Err.ofDi e)

/-- The DEPENDENCY_NOT_FOUND error built at src/di.js:107. -/
def depNotFoundError (dn : String) (args : List String) (deps : List Val) :
    DiError :=
  { code := 103, diName := dn,
    msg := "could not inject \"" ++ getMissingDependencies args deps ++
      "\" (either missing or not setPublic() if imported)" }

/-- The NOT_A_FUNCTION error built at src/di.js:96. -/
def notAFunctionError (dn : String) : DiError :=
  { code := 102, diName := dn, msg := "fn must be typeof function" }

/-- Requests to the mutually recursive core of the source: `di.get`
(src/di.js:203-224), its import loop (src/di.js:217-221), the body of
`di`/`di.invoke` once the target function is known (src/di.js:100-111),
and the resolution of a parameter-name list (src/di.js:101-104). -/
inductive Req where
  | getR (selfId : Nat) (name : String) (publicOnly : Bool) (hasH : Bool)
  | importsR (key : String) (ids : List Nat) (hasH : Bool)
  | invokeR (selfId : Nat) (fid : Nat)
      (custom : Option (List (String × Val))) (hasH : Bool)
  | argsR (selfId : Nat) (params : List String)
      (custom : Option (List (String × Val)))

/-- Result shape of a request: a single value, or a resolved argument list. -/
inductive Out where
  | val (v : Val)
  | vals (vs : List Val)

/-- Custom-override injection rule at src/di.js:103: an own property whose
value is `null` becomes `undefined`; any other own value is used as-is. -/
def customVal : Option Val → Val
  | some Val.vnull => Val.vundef
  | some v => v
  | none => Val.vundef

/-- The fuel-indexed interpreter for the mutually recursive engine.  Fuel
decreases on every internal call; the JS source would recurse without bound
exactly where fuel can run out (cyclic import chains).  Branches are
annotated with the source lines they translate. -/
def run : Nat → Req → World → Except Err (Out × World)
  | 0, _, _ => Except.error Err.outOfFuel
  | fuel + 1, req, w =>
    match req with
    | Req.getR selfId name publicOnly hasH =>
      match getInj? w selfId with
      | none => Except.ok (Out.val Val.vnull, w)
      | some self =>
        -- src/di.js:204 `key = name.toLowerCase()`
        let key := lowerStr name
        -- src/di.js:206 `_registers.hasOwnProperty(key) && (publicOnly !== true || _public[key])`
        if ahas self.registers key && (!publicOnly || self.pub.contains key) then
          match aget? self.registers key with
          | none => Except.ok (Out.val Val.vnull, w)
          | some entry =>
            match factoryFid? entry with
            | some fid =>
              -- src/di.js:207-208: `_registers[key] && _registers[key][__di_factory]`
              -- (a callback wrapper is a function object, hence truthy) —
              -- invoke it, store the result under the looked-up key, return it
              match run fuel (Req.invokeR selfId fid none hasH) w with
              | Except.ok (Out.val r, w1) =>
                match getInj? w1 selfId with
                | some self1 =>
                  Except.ok (Out.val r,
                    setInj w1 selfId
                      { self1 with registers := aset self1.registers key r })
                | none => Except.ok (Out.val r, w1)
              | Except.ok (Out.vals _, _) => Except.error Err.outOfFuel
              | Except.error e => Except.error e
            | none =>
              -- src/di.js:210: a non-factory (or falsy) entry is returned as-is
              Except.ok (Out.val entry, w)
        else if ahas self.importCache key then
          -- src/di.js:213-215
          Except.ok (Out.val ((aget? self.importCache key).getD Val.vnull), w)
        else
          -- src/di.js:217-221: walk `_imports`; cache and return the first
          -- non-null answer; src/di.js:223 `return null` caches nothing
          match run fuel (Req.importsR key self.importList hasH) w with
          | Except.ok (Out.val dep, w1) =>
            if dep = Val.vnull then Except.ok (Out.val Val.vnull, w1)
            else
              match getInj? w1 selfId with
              | some self1 =>
                Except.ok (Out.val dep,
                  setInj w1 selfId
                    { self1 with importCache := aset self1.importCache key dep })
              | none => Except.ok (Out.val dep, w1)
          | Except.ok (Out.vals _, _) => Except.error Err.outOfFuel
          | Except.error e => Except.error e
    | Req.importsR key ids hasH =>
      match ids with
      | [] => Except.ok (Out.val Val.vnull, w)
      | d :: rest =>
        -- src/di.js:218: `_imports[index].get(key, true, onError)`
        match run fuel (Req.getR d key true hasH) w with
        | Except.ok (Out.val dep, w1) =>
          if dep = Val.vnull then run fuel (Req.importsR key rest hasH) w1
          else Except.ok (Out.val dep, w1)
        | Except.ok (Out.vals _, _) => Except.error Err.outOfFuel
        | Except.error e => Except.error e
    | Req.invokeR selfId fid custom hasH =>
      match w.funcs[fid]? with
      | none => Except.ok (Out.val Val.vnull, w)
      | some f =>
        -- src/di.js:100-104: extract parameter names, resolve each
        match run fuel (Req.argsR selfId f.params custom) w with
        | Except.ok (Out.vals injections, w1) =>
          if injections.contains Val.vnull then
            -- src/di.js:106-109
            match handleErrorV hasH
                (depNotFoundError (dnOf w selfId) f.params injections) w1 with
            | Except.ok (v, w2) => Except.ok (Out.val v, w2)
            | Except.error e => Except.error e
          else
            -- src/di.js:111: `fn.apply(fn, injections)`
            Except.ok (Out.val (f.ret injections),
              { w1 with callLog := w1.callLog ++ [fid] })
        | Except.ok (Out.val _, _) => Except.error Err.outOfFuel
        | Except.error e => Except.error e
    | Req.argsR selfId params custom =>
      match params with
      | [] => Except.ok (Out.vals [], w)
      | a :: rest =>
        -- src/di.js:101-104.  In the source the per-argument lookups are
        -- `args.map(di.get)` (so `publicOnly` receives the element index —
        -- never `true` — and `onError` receives the array itself — never a
        -- function) or, with overrides, `di.get(arg)` with both omitted;
        -- either way the nested get runs with no usable error handler.
        match
          (match custom with
            | some c =>
              if ahas c a then Except.ok (Out.val (customVal (aget? c a)), w)
              else run fuel (Req.getR selfId a false false) w
            | none => run fuel (Req.getR selfId a false false) w) with
        | Except.ok (Out.val v, w1) =>
          match run fuel (Req.argsR selfId rest custom) w1 with
          | Except.ok (Out.vals vs, w2) => Except.ok (Out.vals (v :: vs), w2)
          | Except.ok (Out.val _, _) => Except.error Err.outOfFuel
          | Except.error e => Except.error e
        | Except.ok (Out.vals _, _) => Except.error Err.outOfFuel
        | Except.error e => Except.error e

/-- `di.get(name, publicOnly, onError)` (src/di.js:203-224). -/
def getOp (fuel : Nat) (w : World) (selfId : Nat) (name : String)
    (publicOnly : Bool) (hasH : Bool) : Except Err (Val × World) :=
  match run fuel (Req.getR selfId name publicOnly hasH) w with
  | Except.ok (Out.val v, w1) => Except.ok (v, w1)
  | Except.ok (Out.vals _, _) => Except.error Err.outOfFuel
  | Except.error e => Except.error e

/-- The body of `di`/`di.invoke` applied to a known table function. -/
def invokeFn (fuel : Nat) (w : World) (selfId : Nat) (fid : Nat)
    (custom : Option (List (String × Val))) (hasH : Bool) :
    Except Err (Val × World) :=
  match run fuel (Req.invokeR selfId fid custom hasH) w with
  | Except.ok (Out.val v, w1) => Except.ok (v, w1)
  | Except.ok (Out.vals _, _) => Except.error Err.outOfFuel
  | Except.error e => Except.error e

/-- Resolution of a parameter-name list against overrides and the registry
(src/di.js:101-104). -/
def resolveArgs (fuel : Nat) (w : World) (selfId : Nat) (params : List String)
    (custom : Option (List (String × Val))) : Except Err (List Val × World) :=
  match run fuel (Req.argsR selfId params custom) w with
  | Except.ok (Out.vals vs, w1) => Except.ok (vs, w1)
  | Except.ok (Out.val _, _) => Except.error Err.outOfFuel
  | Except.error e => Except.error e

/-- `di(fn, custom, onError)` / `di.invoke` (src/di.js:92-112): reject a
non-function target through `handleError`, otherwise resolve and apply.
A stored callback wrapper used as target re-invokes its wrapped function
with no handler (its zero-parameter wrapper resolves nothing and calls
`di.invoke(fn, custom, undefined)`); applying an injector value itself is
not modelled (no claim exercises it) and yields the sentinel. -/
def invokeOp (fuel : Nat) (w : World) (selfId : Nat) (fnVal : Val)
    (custom : Option (List (String × Val))) (hasH : Bool) :
    Except Err (Val × World) :=
  if jsIsFunction fnVal then
    match fnVal with
    | Val.vfn fid => invokeFn fuel w selfId fid custom hasH
    | Val.vfactory fid => invokeFn fuel w selfId fid none false
    | _ => Except.ok (Val.vnull, w)
  else handleErrorV hasH (notAFunctionError (dnOf w selfId)) w

/-- `di.require(name, onError)` (src/di.js:234-242): `get` with
`publicOnly = null`, then report not-found through `handleError`. -/
def requireOp (fuel : Nat) (w : World) (selfId : Nat) (name : String)
    (hasH : Bool) : Except Err (Val × World) :=
  match getOp fuel w selfId name false hasH with
  | Except.ok (dep, w1) =>
    if dep = Val.vnull then
      handleErrorV hasH
        { code := 103, diName := dnOf w selfId,
          msg := "\"" ++ name ++ "\" required, but not registered" } w1
    else Except.ok (dep, w1)
  | Except.error e => Except.error e

/-- `register(name).value(v)` (src/di.js:269-273): store the value under the
normalized name and under the injector-name-prefixed key, and record the
name in `_names`. -/
def valueOp (w : World) (selfId : Nat) (rawName : String) (v : Val) : World :=
  match getInj? w selfId with
  | none => w
  | some self =>
    let n := normalizeName rawName
    setInj w selfId
      { self with
        registers := aset (aset self.registers (self.diName ++ n) v) n v,
        names := addKey self.names n }

/-- `register(name).public()` (src/di.js:260-263): flag both keys public. -/
def publicOp (w : World) (selfId : Nat) (rawName : String) : World :=
  match getInj? w selfId with
  | none => w
  | some self =>
    let n := normalizeName rawName
    setInj w selfId
      { self with pub := addKey (addKey self.pub (self.diName ++ n)) n }

/-- The NOT_A_FUNCTION error built at src/di.js:283 (whose message
interpolates the enclosing `diFactory`'s raw `name` argument, not the
dependency name). -/
def factoryNotFnError (w : World) (selfId : Nat) : DiError :=
  { code := 102, diName := dnOf w selfId,
    msg := "\"" ++
      (match getInj? w selfId with
        | some self => self.rawName
        | none => "") ++
      "\" was defined as factory but is not typeof function" }

/-- `register(name).factory(fn)` (src/di.js:281-291): a non-function is
reported through `handleError` with the dependency's `onError` and the
registration is a no-op; otherwise the function is wrapped into a tagged
callback and stored like a value. -/
def factoryOp (w : World) (selfId : Nat) (rawName : String) (fnVal : Val)
    (hasH : Bool) : Except Err World :=
  if jsIsFunction fnVal then
    match fnVal with
    | Val.vfn fid => Except.ok (valueOp w selfId rawName (Val.vfactory fid))
    | Val.vfactory fid => Except.ok (valueOp w selfId rawName (Val.vfactory fid))
    | _ => Except.ok w
  else
    if hasH then
      Except.ok { w with errLog := w.errLog ++ [factoryNotFnError w selfId] }
    else Except.error (Err.ofDi (factoryNotFnError w selfId))

/-- One step of `di.import` (src/di.js:153-158): append `d` when it is an
injector with a truthy name, not already imported, and not the importer
itself; any append clears `_importCache` wholesale. -/
def importStep (w : World) (selfId : Nat) (d : Nat) : World :=
  match getInj? w selfId, getInj? w d with
  | some self, some imp =>
    if imp.diName != "" && !(self.importList.contains d) && d != selfId then
      setInj w selfId
        { self with importList := self.importList ++ [d], importCache := [] }
    else w
  | _, _ => w

/-- `di.import(imports)` (src/di.js:152-160) over a list argument. -/
def importOp (w : World) (selfId : Nat) (ids : List Nat) : World :=
  ids.foldl (fun acc d => importStep acc selfId d) w

/-- `diFactory(name, imports)` (src/di.js:62-381): allocate the injector with
its sanitized name, run `di.import(imports)`, then self-register under
`di` and `<name>di`.  Returns the new index and the new world. -/
def diFactoryOp (w : World) (rawName : String) (ctorImps : List Nat) :
    Nat × World :=
  let id := w.injs.length
  let base : Inj :=
    { diName := normalizeName rawName, rawName := rawName, registers := [],
      pub := [], names := [], importList := [], importCache := [],
      ctorImports := ctorImps }
  let w1 : World := { w with injs := w.injs ++ [base] }
  let w2 := importOp w1 id ctorImps
  (id, valueOp w2 id "di" (Val.vdi id))

/-- `di.newChild(name, imports)` (src/di.js:347-349):
`diFactory(name, [di].concat(imports || []))`. -/
def newChildOp (w : World) (parentId : Nat) (rawName : String)
    (extra : List Nat) : Nat × World :=
  diFactoryOp w rawName ([parentId] ++ extra)

/-- `di.getImportNames()` (src/di.js:354-358).  The source maps over the
closure variable `imports` — the constructor argument of `diFactory` —
not over the maintained `_imports` list. -/
def getImportNamesOp (w : World) (selfId : Nat) : List String :=
  match getInj? w selfId with
  | none => []
  | some self =>
    self.ctorImports.map (fun d =>
      match getInj? w d with
      | some imp => imp.diName
      | none => "")

/-- `getFileContents` (src/di.js:40-54) with the module-load collaborator as
a parameter: `loaded = none` models a throwing `require`, reported through
`handleError` as COULD_NOT_REQUIRE with a `null` result. -/
def getFileContents (loaded : Option Val) (hasH : Bool) (dn : String)
    (w : World) : Except Err (Val × World) :=
  match loaded with
  | some v => Except.ok (v, w)
  | none =>
    handleErrorV hasH
      { code := 101, diName := dn, msg := "Could not require file" } w

/-- `di.file(file, custom, onError)` (src/di.js:136-146): load, reject a
non-function export, else inject and invoke it. -/
def fileOp (fuel : Nat) (w : World) (selfId : Nat) (loaded : Option Val)
    (custom : Option (List (String × Val))) (hasH : Bool) :
    Except Err (Val × World) :=
  match getFileContents loaded hasH (dnOf w selfId) w with
  | Except.error e => Except.error e
  | Except.ok (v, w1) =>
    if v = Val.vnull then Except.ok (Val.vnull, w1)
    else if !jsIsFunction v then
      handleErrorV hasH
        { code := 102, diName := dnOf w selfId,
          msg := "require(file) did not return a function" } w1
    else invokeOp fuel w1 selfId v custom hasH

/-! Extraction helpers used to state first-order facts about results. -/

/-- The value part of a resolution result. -/
def resVal : Except Err (Val × World) → Except Err Val
  | Except.ok (v, _) => Except.ok v
  | Except.error e => Except.error e

/-- The world part of a resolution result, defaulting to the input world. -/
def resWorld (w : World) : Except Err (Val × World) → World
  | Except.ok (_, w1) => w1
  | Except.error _ => w

/-- How often table function `fid` was applied in a world. -/
def callsIn (w : World) (fid : Nat) : Nat :=
  w.callLog.count fid

/-- A registry entry of injector `i` in a world. -/
def regIn (w : World) (i : Nat) (key : String) : Option Val :=
  match getInj? w i with
  | some self => aget? self.registers key
  | none => none

/-- The import cache of injector `i` in a world. -/
def cacheIn (w : World) (i : Nat) : List (String × Val) :=
  match getInj? w i with
  | some self => self.importCache
  | none => []

/-- The import list of injector `i` in a world. -/
def importsIn (w : World) (i : Nat) : List Nat :=
  match getInj? w i with
  | some self => self.importList
  | none => []

/-! Shared base worlds and small helper lemmas. -/

/-- The empty world: no injectors, no functions, nothing applied or delivered. -/
def emptyWorld : World :=
  { injs := [], funcs := [], callLog := [], errLog := [] }

/-- A value without the factory tag has no wrapped function index. -/
theorem factoryFid?_eq_none {v : Val} (h : isFactoryVal v = false) :
    factoryFid? v = none := by
  cases v <;> simp_all [isFactoryVal, factoryFid?]

/-! Claim C1.  Scenario: injector `app` with `register('x').factory(f)` where
`f` takes no parameters and returns `r`.  The factory callback is stored under
both keys `x` and `appx`; `di.get` memoizes only under the looked-up key. -/

/-- World for the C1 scenario: injector 0 named `app`, function table holding
the single factory function returning `r`, and the tagged callback registered
under `x` and `appx` (what `register('x').factory(...)` stores). -/
def c1World (r : Val) : World :=
  valueOp
    ((diFactoryOp
        { injs := [], funcs := [{ params := [], ret := fun _ => r }],
          callLog := [], errLog := [] } "app" []).2)
    0 "x" (Val.vfactory 0)

/-- World after the first `get('x')` on the C1 scenario. -/
def c1w1 (r : Val) : World :=
  resWorld (c1World r) (getOp 9 (c1World r) 0 "x" false false)

/-- Claim C1 is false as stated: registering a factory stores the same tagged
callback under the bare key and the injector-name-prefixed key, and `di.get`
overwrites only the looked-up key with the result, so fetching `x` and then
`appx` on the same injector applies the factory function twice.  Concretely,
with the factory returning 7: the registration succeeds, the first lookup
applies the factory once, and the prefixed lookup applies it a second time. -/
theorem c1_factory_two_keys_counterexample :
    factoryOp
        ((diFactoryOp
            { injs := [],
              funcs := [{ params := [], ret := fun _ => Val.vnum 7 }],
              callLog := [], errLog := [] } "app" []).2)
        0 "x" (Val.vfn 0) false = Except.ok (c1World (Val.vnum 7))
    ∧ callsIn (c1w1 (Val.vnum 7)) 0 = 1
    ∧ resVal (getOp 9 (c1w1 (Val.vnum 7)) 0 "appx" false false) =
        Except.ok (Val.vnum 7)
    ∧ callsIn
        (resWorld (c1w1 (Val.vnum 7))
          (getOp 9 (c1w1 (Val.vnum 7)) 0 "appx" false false)) 0 = 2
    ∧ ¬ callsIn
        (resWorld (c1w1 (Val.vnum 7))
          (getOp 9 (c1w1 (Val.vnum 7)) 0 "appx" false false)) 0 ≤ 1 := by
  refine ⟨rfl, rfl, rfl, rfl, ?_⟩
  decide

/-- Amended claim C1: a factory entry is applied at most once per registry
key.  Repeated `get` through the same key applies the factory exactly once
and permanently replaces the entry under that key with the factory's result;
a later lookup through the other registered key applies the factory once
more (so up to twice in total for the two keys a registration creates). -/
theorem c1_factory_memoized_per_key (r : Val) (hr : isFactoryVal r = false) :
    ∃ w1 w2 w3,
      getOp 5 (c1World r) 0 "x" false false = Except.ok (r, w1)
      ∧ regIn w1 0 "x" = some r
      ∧ callsIn w1 0 = 1
      ∧ getOp 5 w1 0 "x" false false = Except.ok (r, w2)
      ∧ regIn w2 0 "x" = some r
      ∧ callsIn w2 0 = 1
      ∧ getOp 5 w2 0 "appx" false false = Except.ok (r, w3)
      ∧ callsIn w3 0 = 2 := by
  cases r
  case vfactory fid => exact absurd hr (by simp [isFactoryVal, factoryFid?])
  all_goals exact ⟨_, _, _, rfl, rfl, rfl, rfl, rfl, rfl, rfl, rfl⟩

/-- Witness for the amended claim C1 at the concrete factory result 7. -/
theorem c1_factory_memoized_per_key_witness :
    isFactoryVal (Val.vnum 7) = false
    ∧ (∃ w1 w2 w3,
      getOp 5 (c1World (Val.vnum 7)) 0 "x" false false =
          Except.ok (Val.vnum 7, w1)
      ∧ regIn w1 0 "x" = some (Val.vnum 7)
      ∧ callsIn w1 0 = 1
      ∧ getOp 5 w1 0 "x" false false = Except.ok (Val.vnum 7, w2)
      ∧ regIn w2 0 "x" = some (Val.vnum 7)
      ∧ callsIn w2 0 = 1
      ∧ getOp 5 w2 0 "appx" false false = Except.ok (Val.vnum 7, w3)
      ∧ callsIn w3 0 = 2) :=
  ⟨rfl, c1_factory_memoized_per_key (Val.vnum 7) rfl⟩

/-! Claim C4.  Scenario: `c = diFactory('c')`, `a = diFactory('a', [c])`,
`b = a.newChild('b')`.  Injector indices: c = 0, a = 1, b = 2. -/

/-- World for the C4 scenario. -/
def c4World : World :=
  (newChildOp ((diFactoryOp ((diFactoryOp emptyWorld "c" []).2) "a" [0]).2)
    1 "b" []).2

/-- Evaluation of `newChild` at the C4 failing input: the parent `a` imports
`c`, but the child `b`'s import list is `[a]` alone — the parent's own
imports are not pre-seeded into the child, contradicting the claim (and the
library's own documentation of `newChild`, which says it adds self and
self.imports). -/
theorem c4_newChild_parent_imports_absent :
    importsIn c4World 1 = [0]
    ∧ importsIn c4World 2 = [1]
    ∧ ¬ (0 ∈ importsIn c4World 2)
    ∧ getImportNamesOp c4World 2 = ["a"] := by
  decide

/-! Claim C8.  Scenario: `a = diFactory('a')`, `b = diFactory('b')`,
then `a.import(b)`.  Injector indices: a = 0, b = 1. -/

/-- World for the C8 scenario. -/
def c8World : World :=
  importOp ((diFactoryOp ((diFactoryOp emptyWorld "a" []).2) "b" []).2) 0 [1]

/-- Evaluation of `getImportNames` at the C8 failing input: after
`a.import(b)` the maintained import list of `a` is `[b]`, but
`getImportNames()` — which maps over the stale constructor argument
`imports` instead of `_imports` — still returns the empty list, missing the
injector added after construction. -/
theorem c8_getImportNames_reads_stale_argument :
    importsIn c8World 0 = [1]
    ∧ getImportNamesOp c8World 0 = []
    ∧ ¬ getImportNamesOp c8World 0 = ["b"] := by
  decide

/-! Claim C5.  Scenario: injector `app` (nothing registered besides itself),
target function with the single parameter `p` and arbitrary body `g`. -/

/-- World for the C5 scenario. -/
def c5World (g : List Val → Val) : World :=
  (diFactoryOp
    { injs := [], funcs := [{ params := ["p"], ret := g }],
      callLog := [], errLog := [] } "app" []).2

/-- Claim C5: invoking with an override map whose own property for `p` is
`null` injects `undefined` for `p` — the function is applied to
`[undefined]`, no error is raised or delivered — while invoking with an
override map lacking `p` (with `p` also unregistered) fails with the
missing-dependency error, thrown without a callback and delivered with
one. -/
theorem c5_custom_null_override (g : List Val → Val) :
    (∃ w1,
      invokeOp 5 (c5World g) 0 (Val.vfn 0) (some [("p", Val.vnull)]) false =
        Except.ok (g [Val.vundef], w1)
      ∧ w1.errLog = []
      ∧ callsIn w1 0 = 1)
    ∧ invokeOp 5 (c5World g) 0 (Val.vfn 0) (some []) false =
        Except.error (Err.ofDi
          { code := 103, diName := "app",
            msg := "could not inject \"p\" (either missing or not setPublic() if imported)" })
    ∧ (∃ w2,
      invokeOp 5 (c5World g) 0 (Val.vfn 0) (some []) true =
        Except.ok (Val.vnull, w2)
      ∧ w2.errLog =
          [{ code := 103, diName := "app",
             msg := "could not inject \"p\" (either missing or not setPublic() if imported)" }]
      ∧ callsIn w2 0 = 0) :=
  ⟨⟨_, rfl, rfl, rfl⟩, rfl, ⟨_, rfl, rfl, rfl⟩⟩

/-! Claim C9.  Scenario: injector `app`, `register('f').factory(fn)` where
`fn` requires the unregistered dependency `dep`, lookups supplying an error
callback.  Indices: injector 0, function 0. -/

/-- Base world for the C9 scenario (before the factory registration). -/
def c9Base (g : List Val → Val) : World :=
  (diFactoryOp
    { injs := [], funcs := [{ params := ["dep"], ret := g }],
      callLog := [], errLog := [] } "app" []).2

/-- C9 world after `register('f').factory(fn)`. -/
def c9Reg (g : List Val → Val) : World :=
  valueOp (c9Base g) 0 "f" (Val.vfactory 0)

/-- Claim C9: when the first resolution of a factory fails non-fatally (an
error callback was supplied and `dep` is missing), the looked-up key `f` is
permanently overwritten with the `null` sentinel and the missing-dependency
error is delivered; afterwards — even once `dep` is registered with any
value — `get('f')` keeps returning `null` without state change, without new
errors, and the factory body is never applied (the call log stays empty). -/
theorem c9_failed_factory_memoizes_null (g : List Val → Val) (dv : Val) :
    factoryOp (c9Base g) 0 "f" (Val.vfn 0) false = Except.ok (c9Reg g)
    ∧ ∃ w1,
      getOp 9 (c9Reg g) 0 "f" false true = Except.ok (Val.vnull, w1)
      ∧ regIn w1 0 "f" = some Val.vnull
      ∧ w1.errLog =
          [{ code := 103, diName := "app",
             msg := "could not inject \"dep\" (either missing or not setPublic() if imported)" }]
      ∧ callsIn w1 0 = 0
      ∧ getOp 9 (valueOp w1 0 "dep" dv) 0 "f" false true =
          Except.ok (Val.vnull, valueOp w1 0 "dep" dv)
      ∧ getOp 9 (valueOp w1 0 "dep" dv) 0 "f" false false =
          Except.ok (Val.vnull, valueOp w1 0 "dep" dv)
      ∧ callsIn (valueOp w1 0 "dep" dv) 0 = 0 :=
  ⟨rfl, _, rfl, rfl, rfl, rfl, rfl, rfl, rfl⟩

/-! Generic facts about the association lists and the interpreter, used by
the symbolic-state theorems below. -/

/-- Lookup after keyed assignment. -/
theorem aget?_aset (m : List (String × Val)) (k key : String) (v : Val) :
    aget? (aset m k v) key = if k = key then some v else aget? m key := by
  induction m with
  | nil =>
    by_cases h : k = key <;> simp [aset, aget?, h]
  | cons p rest ih =>
    obtain ⟨k', v'⟩ := p
    by_cases hk : k' = k
    · subst hk
      by_cases hkey : k' = key <;> simp [aset, aget?, hkey]
    · by_cases hkey : k' = key
      · subst hkey
        have hk2 : k ≠ k' := fun h => hk h.symm
        simp [aset, aget?, hk, hk2]
      · simp [aset, aget?, hk, hkey, ih]

/-- Unfolding `getOp` along a computed `run` result. -/
theorem getOp_of_run {fuel : Nat} {w : World} {selfId : Nat} {name : String}
    {pOnly hasH : Bool} {v : Val} {w1 : World}
    (hr : run fuel (Req.getR selfId name pOnly hasH) w =
      Except.ok (Out.val v, w1)) :
    getOp fuel w selfId name pOnly hasH = Except.ok (v, w1) := by
  simp [getOp, hr]

/-- A local registry hit on a non-factory entry returns it unchanged
(src/di.js:206-210). -/
theorem getR_local_hit (fuel : Nat) {w : World} {selfId : Nat} {self : Inj}
    (name : String) (pOnly hasH : Bool) {v : Val}
    (hself : getInj? w selfId = some self)
    (hpub : (!pOnly || self.pub.contains (lowerStr name)) = true)
    (hreg : aget? self.registers (lowerStr name) = some v)
    (hfac : factoryFid? v = none) :
    run (fuel + 1) (Req.getR selfId name pOnly hasH) w =
      Except.ok (Out.val v, w) := by
  have hc : (ahas self.registers (lowerStr name) &&
      (!pOnly || self.pub.contains (lowerStr name))) = true := by
    rw [ahas, hreg]
    simpa using hpub
  simp only [run, hself]
  rw [hc]
  simp only [hreg, hfac]
  rfl

/-- A local miss (or a public-only rejection) with a cold cache falls
through to the import walk (src/di.js:213-223). -/
theorem getR_fallthrough (fuel : Nat) {w : World} {selfId : Nat} {self : Inj}
    (name : String) (pOnly hasH : Bool)
    (hself : getInj? w selfId = some self)
    (hcond : (ahas self.registers (lowerStr name) &&
      (!pOnly || self.pub.contains (lowerStr name))) = false)
    (hcache : aget? self.importCache (lowerStr name) = none) :
    run (fuel + 1) (Req.getR selfId name pOnly hasH) w =
      (match run fuel (Req.importsR (lowerStr name) self.importList hasH) w with
       | Except.ok (Out.val dep, w1) =>
         if dep = Val.vnull then Except.ok (Out.val Val.vnull, w1)
         else
           match getInj? w1 selfId with
           | some self1 =>
             Except.ok (Out.val dep,
               setInj w1 selfId
                 { self1 with
                   importCache := aset self1.importCache (lowerStr name) dep })
           | none => Except.ok (Out.val dep, w1)
       | Except.ok (Out.vals _, _) => Except.error Err.outOfFuel
       | Except.error e => Except.error e) := by
  simp only [run, hself]
  rw [hcond]
  simp only [ahas, hcache]
  rfl

/-- An import-cache hit returns the cached value without touching state
(src/di.js:213-215). -/
theorem getR_cache_hit (fuel : Nat) {w : World} {selfId : Nat} {self : Inj}
    (name : String) (pOnly hasH : Bool) {v : Val}
    (hself : getInj? w selfId = some self)
    (hcond : (ahas self.registers (lowerStr name) &&
      (!pOnly || self.pub.contains (lowerStr name))) = false)
    (hcache : aget? self.importCache (lowerStr name) = some v) :
    run (fuel + 1) (Req.getR selfId name pOnly hasH) w =
      Except.ok (Out.val v, w) := by
  simp only [run, hself]
  rw [hcond]
  simp only [ahas, hcache]
  rfl

/-- An empty import list resolves to the sentinel (src/di.js:223). -/
theorem importsR_nil (fuel : Nat) (key : String) (hasH : Bool) (w : World) :
    run (fuel + 1) (Req.importsR key [] hasH) w =
      Except.ok (Out.val Val.vnull, w) := by
  simp [run]

/-- The import walk returns the first non-null answer (src/di.js:217-221). -/
theorem importsR_cons_found (fuel : Nat) {w : World} (key : String)
    {d : Nat} (rest : List Nat) (hasH : Bool) {dep : Val} {w1 : World}
    (hget : run fuel (Req.getR d key true hasH) w =
      Except.ok (Out.val dep, w1))
    (hdep : dep ≠ Val.vnull) :
    run (fuel + 1) (Req.importsR key (d :: rest) hasH) w =
      Except.ok (Out.val dep, w1) := by
  simp [run, hget, hdep]

/-- The import walk skips an import that answers null (src/di.js:218). -/
theorem importsR_cons_null (fuel : Nat) {w : World} (key : String)
    {d : Nat} (rest : List Nat) (hasH : Bool) {w1 : World}
    (hget : run fuel (Req.getR d key true hasH) w =
      Except.ok (Out.val Val.vnull, w1)) :
    run (fuel + 1) (Req.importsR key (d :: rest) hasH) w =
      run fuel (Req.importsR key rest hasH) w1 := by
  simp [run, hget]

/-- Recovering the interpreter result from a successful `resolveArgs`. -/
theorem resolveArgs_run {fuel : Nat} {w : World} {selfId : Nat}
    {ps : List String} {custom : Option (List (String × Val))}
    {injs : List Val} {w1 : World}
    (h : resolveArgs fuel w selfId ps custom = Except.ok (injs, w1)) :
    run fuel (Req.argsR selfId ps custom) w = Except.ok (Out.vals injs, w1) := by
  unfold resolveArgs at h
  cases hr : run fuel (Req.argsR selfId ps custom) w with
  | error e => rw [hr] at h; cases h
  | ok p =>
    obtain ⟨o, w'⟩ := p
    cases o <;> rw [hr] at h <;> simp_all

/-- With at least one sentinel among the injections, the invoke body routes
the DEPENDENCY_NOT_FOUND error through `handleError` (src/di.js:106-109). -/
theorem invokeFn_missing (fuel : Nat) {w : World} {selfId fid : Nat} {f : Fn}
    {custom : Option (List (String × Val))} (hasH : Bool) {injs : List Val}
    {w1 : World}
    (hfun : w.funcs[fid]? = some f)
    (hargs : resolveArgs fuel w selfId f.params custom = Except.ok (injs, w1))
    (hmiss : Val.vnull ∈ injs) :
    invokeFn (fuel + 1) w selfId fid custom hasH =
      handleErrorV hasH (depNotFoundError (dnOf w selfId) f.params injs) w1 := by
  have hrun := resolveArgs_run hargs
  have hcont : injs.contains Val.vnull = true := by
    simpa using hmiss
  unfold invokeFn
  simp only [run, hfun, hrun, hcont, if_true]
  cases hasH <;> simp [handleErrorV]

/-! Claim C6: the missing-dependency message. -/

/-- The unresolved parameter names, in declaration order: exactly those whose
resolved injection is the `null` sentinel. -/
def missingParams (args : List String) (deps : List Val) : List String :=
  (args.zip deps).filterMap
    (fun p => if p.2 = Val.vnull then some p.1 else none)

/-- On parameter lists without empty names (JavaScript parameter names are
never empty), the source's `getMissingDependencies` is exactly the
comma-joined list of unresolved parameter names in declaration order. -/
theorem getMissingDependencies_eq (args : List String) (deps : List Val)
    (h : ∀ a ∈ args, a ≠ "") :
    getMissingDependencies args deps =
      String.intercalate ", " (missingParams args deps) := by
  unfold getMissingDependencies missingParams
  congr 1
  induction args generalizing deps with
  | nil => simp
  | cons a as ih =>
    cases deps with
    | nil => simp
    | cons d ds =>
      have ha : a ≠ "" := h a (by simp)
      have hrest : ∀ x ∈ as, x ≠ "" := fun x hx => h x (by simp [hx])
      by_cases hd : d = Val.vnull <;>
        simp [List.zip_cons_cons, hd, ha, ih ds hrest]

/-- Claim C6: whenever at least one resolved argument is the not-found
sentinel, the invocation fails through `handleError` with the
DEPENDENCY_NOT_FOUND error (code 103) whose message quotes exactly the
unresolved parameter names, in the function's parameter declaration order,
joined by a comma and a space. -/
theorem c6_missing_message_exact (fuel : Nat) (w : World) (selfId fid : Nat)
    (f : Fn) (custom : Option (List (String × Val))) (hasH : Bool)
    (injs : List Val) (w1 : World)
    (hfun : w.funcs[fid]? = some f)
    (hargs : resolveArgs fuel w selfId f.params custom = Except.ok (injs, w1))
    (hmiss : Val.vnull ∈ injs)
    (hne : ∀ p ∈ f.params, p ≠ "") :
    invokeFn (fuel + 1) w selfId fid custom hasH =
      handleErrorV hasH
        { code := 103, diName := dnOf w selfId,
          msg := "could not inject \"" ++
            String.intercalate ", " (missingParams f.params injs) ++
            "\" (either missing or not setPublic() if imported)" } w1 := by
  rw [invokeFn_missing fuel hasH hfun hargs hmiss]
  unfold depNotFoundError
  rw [getMissingDependencies_eq f.params injs hne]

/-- World for the C6 witness: injector `app`, one function with two
parameters `aa` and `bb`, both unregistered. -/
def c6World : World :=
  (diFactoryOp
    { injs := [],
      funcs := [{ params := ["aa", "bb"], ret := fun _ => Val.vnum 0 }],
      callLog := [], errLog := [] } "app" []).2

/-- Witness for claim C6 at a concrete invocation: both parameters
unresolved, the message quotes the two names joined by a comma. -/
theorem c6_missing_message_exact_witness :
    resolveArgs 5 c6World 0 ["aa", "bb"] none =
        Except.ok ([Val.vnull, Val.vnull], c6World)
    ∧ Val.vnull ∈ [Val.vnull, Val.vnull]
    ∧ (∀ p ∈ ["aa", "bb"], p ≠ "")
    ∧ String.intercalate ", "
        (missingParams ["aa", "bb"] [Val.vnull, Val.vnull]) = "aa, bb"
    ∧ invokeFn 6 c6World 0 0 none false =
        handleErrorV false
          { code := 103, diName := dnOf c6World 0,
            msg := "could not inject \"" ++
              String.intercalate ", "
                (missingParams ["aa", "bb"] [Val.vnull, Val.vnull]) ++
              "\" (either missing or not setPublic() if imported)" } c6World :=
  ⟨rfl, by decide, by decide,
    by decide,
    c6_missing_message_exact 5 c6World 0 0
      { params := ["aa", "bb"], ret := fun _ => Val.vnum 0 } none false
      [Val.vnull, Val.vnull] c6World rfl rfl (by decide) (by decide)⟩

/-! Claim C7.  The propagation policy, and its one exception. -/

/-- World for the C7 counterexample: injector `app`, factory `fact` whose
function needs the unregistered `missing`, and a consumer function with
parameter `fact`. -/
def c7World : World :=
  valueOp
    ((diFactoryOp
        { injs := [],
          funcs := [{ params := ["missing"], ret := fun _ => Val.vnum 1 },
                    { params := ["fact"], ret := fun _ => Val.vnum 2 }],
          callLog := [], errLog := [] } "app" []).2)
    0 "fact" (Val.vfactory 0)

/-- Claim C7 is false as stated for `invoke`: the per-argument lookups of
`di()` run with no usable error handler (`args.map(di.get)` passes the
element index and the arguments array, not a function), so when resolving
the parameter `fact` triggers the factory and the factory's invocation fails
on `missing`, the error is thrown out of `di()` even though the caller
supplied an error callback — instead of being delivered to the callback with
a `null` return as the claim requires. -/
theorem c7_factory_error_bypasses_callback :
    factoryOp
        ((diFactoryOp
            { injs := [],
              funcs := [{ params := ["missing"], ret := fun _ => Val.vnum 1 },
                        { params := ["fact"], ret := fun _ => Val.vnum 2 }],
              callLog := [], errLog := [] } "app" []).2)
        0 "fact" (Val.vfn 0) false = Except.ok c7World
    ∧ invokeOp 9 c7World 0 (Val.vfn 1) none true =
        Except.error (Err.ofDi
          { code := 103, diName := "app",
            msg := "could not inject \"missing\" (either missing or not setPublic() if imported)" }) :=
  ⟨rfl, rfl⟩

/-- Amended claim C7: every fallible operation delivers the errors it itself
raises — a non-function invoke target, missing dependencies detected by
invoke, a `require` miss, a module-load failure, a non-function factory
registration — to its error callback when one is supplied (returning the
not-found sentinel or a no-op), and throws them when no callback is
supplied.  The exception is an error raised by a lazy factory during
invoke's argument resolution, which is thrown even when invoke was given a
callback (see the counterexample). -/
theorem c7_error_policy_direct_paths
    (fuel : Nat) (w : World) (selfId : Nat)
    (custom : Option (List (String × Val))) (name : String)
    (v fv : Val) (fid : Nat) (f : Fn) (injs : List Val) (w1 wt wf : World)
    (hv : jsIsFunction v = false)
    (hfun : w.funcs[fid]? = some f)
    (hargs : resolveArgs fuel w selfId f.params custom = Except.ok (injs, w1))
    (hmiss : Val.vnull ∈ injs)
    (hgt : getOp fuel w selfId name false true = Except.ok (Val.vnull, wt))
    (hgf : getOp fuel w selfId name false false = Except.ok (Val.vnull, wf))
    (hfv : jsIsFunction fv = false) :
    (invokeOp fuel w selfId v custom true =
        Except.ok (Val.vnull,
          { w with errLog := w.errLog ++ [notAFunctionError (dnOf w selfId)] })
      ∧ invokeOp fuel w selfId v custom false =
        Except.error (Err.ofDi (notAFunctionError (dnOf w selfId))))
    ∧ (invokeFn (fuel + 1) w selfId fid custom true =
        Except.ok (Val.vnull,
          { w1 with errLog :=
              w1.errLog ++ [depNotFoundError (dnOf w selfId) f.params injs] })
      ∧ invokeFn (fuel + 1) w selfId fid custom false =
        Except.error (Err.ofDi (depNotFoundError (dnOf w selfId) f.params injs)))
    ∧ (requireOp fuel w selfId name true =
        Except.ok (Val.vnull,
          { wt with errLog := wt.errLog ++
              [{ code := 103, diName := dnOf w selfId,
                 msg := "\"" ++ name ++ "\" required, but not registered" }] })
      ∧ requireOp fuel w selfId name false =
        Except.error (Err.ofDi
          { code := 103, diName := dnOf w selfId,
            msg := "\"" ++ name ++ "\" required, but not registered" }))
    ∧ (fileOp fuel w selfId none custom true =
        Except.ok (Val.vnull,
          { w with errLog := w.errLog ++
              [{ code := 101, diName := dnOf w selfId,
                 msg := "Could not require file" }] })
      ∧ fileOp fuel w selfId none custom false =
        Except.error (Err.ofDi
          { code := 101, diName := dnOf w selfId,
            msg := "Could not require file" }))
    ∧ (factoryOp w selfId name fv true =
        Except.ok { w with errLog := w.errLog ++ [factoryNotFnError w selfId] }
      ∧ factoryOp w selfId name fv false =
        Except.error (Err.ofDi (factoryNotFnError w selfId))) := by
  refine ⟨⟨?_, ?_⟩, ⟨?_, ?_⟩, ⟨?_, ?_⟩, ⟨?_, ?_⟩, ⟨?_, ?_⟩⟩
  · simp [invokeOp, hv, handleErrorV]
  · simp [invokeOp, hv, handleErrorV]
  · rw [invokeFn_missing fuel true hfun hargs hmiss]; simp [handleErrorV]
  · rw [invokeFn_missing fuel false hfun hargs hmiss]; simp [handleErrorV]
  · simp [requireOp, hgt, handleErrorV]
  · simp [requireOp, hgf, handleErrorV]
  · simp [fileOp, getFileContents, handleErrorV]
  · simp [fileOp, getFileContents, handleErrorV]
  · simp [factoryOp, hfv]
  · simp [factoryOp, hfv]

/-- Witness for the amended claim C7 at concrete inputs (reusing the C6
scenario world): all hypotheses hold concretely, and two representative
conclusions are read off the theorem. -/
theorem c7_error_policy_direct_paths_witness :
    jsIsFunction Val.vnull = false
    ∧ c6World.funcs[0]? =
        some { params := ["aa", "bb"], ret := fun _ => Val.vnum 0 }
    ∧ resolveArgs 5 c6World 0 ["aa", "bb"] none =
        Except.ok ([Val.vnull, Val.vnull], c6World)
    ∧ Val.vnull ∈ [Val.vnull, Val.vnull]
    ∧ getOp 5 c6World 0 "nope" false true = Except.ok (Val.vnull, c6World)
    ∧ getOp 5 c6World 0 "nope" false false = Except.ok (Val.vnull, c6World)
    ∧ jsIsFunction (Val.vnum 3) = false
    ∧ invokeOp 5 c6World 0 Val.vnull none false =
        Except.error (Err.ofDi (notAFunctionError (dnOf c6World 0)))
    ∧ requireOp 5 c6World 0 "nope" false =
        Except.error (Err.ofDi
          { code := 103, diName := dnOf c6World 0,
            msg := "\"" ++ "nope" ++ "\" required, but not registered" })
    ∧ factoryOp c6World 0 "nope" (Val.vnum 3) false =
        Except.error (Err.ofDi (factoryNotFnError c6World 0)) :=
  ⟨rfl, rfl, rfl, by decide, rfl, rfl, rfl,
    (c7_error_policy_direct_paths 5 c6World 0 none "nope" Val.vnull
      (Val.vnum 3) 0 { params := ["aa", "bb"], ret := fun _ => Val.vnum 0 }
      [Val.vnull, Val.vnull] c6World c6World c6World rfl rfl rfl (by decide)
      rfl rfl rfl).1.2,
    (c7_error_policy_direct_paths 5 c6World 0 none "nope" Val.vnull
      (Val.vnum 3) 0 { params := ["aa", "bb"], ret := fun _ => Val.vnum 0 }
      [Val.vnull, Val.vnull] c6World c6World c6World rfl rfl rfl (by decide)
      rfl rfl rfl).2.2.1.2,
    (c7_error_policy_direct_paths 5 c6World 0 none "nope" Val.vnull
      (Val.vnum 3) 0 { params := ["aa", "bb"], ret := fun _ => Val.vnum 0 }
      [Val.vnull, Val.vnull] c6World c6World c6World rfl rfl rfl (by decide)
      rfl rfl rfl).2.2.2.2.2⟩

/-! Character-level facts about the embedded `toLowerCase` and the
normalization character classes. -/

/-- Decoding `Char.ofNat` at a valid code point. -/
theorem toNat_charOfNat {n : Nat} (h : n.isValidChar) :
    (Char.ofNat n).toNat = n := by
  unfold Char.ofNat
  rw [dif_pos h]
  unfold Char.ofNatAux Char.toNat
  simp [UInt32.ofNatCore, UInt32.toNat, BitVec.toNat_ofNatLt]

/-- Lowercasing an uppercase letter adds 32 to its code point. -/
theorem asciiLower_toNat_of_upper {c : Char} (h1 : 'A' ≤ c) (h2 : c ≤ 'Z') :
    (asciiLower c).toNat = c.toNat + 32 := by
  have hb : c.toNat ≤ 90 := h2
  have hv : (c.toNat + 32).isValidChar := by
    left
    omega
  unfold asciiLower
  rw [if_pos (by simp [h1, h2])]
  exact toNat_charOfNat hv

/-- Lowercasing fixes everything that is not an uppercase letter. -/
theorem asciiLower_eq_self {c : Char} (h : ¬('A' ≤ c ∧ c ≤ 'Z')) :
    asciiLower c = c := by
  unfold asciiLower
  rw [if_neg]
  simpa using h

/-- The embedded per-character lowercasing is idempotent. -/
theorem asciiLower_idem (c : Char) : asciiLower (asciiLower c) = asciiLower c := by
  by_cases h : 'A' ≤ c ∧ c ≤ 'Z'
  · have ht := asciiLower_toNat_of_upper h.1 h.2
    have h1 : 65 ≤ c.toNat := h.1
    apply asciiLower_eq_self
    intro hup
    have : (asciiLower c).toNat ≤ 90 := hup.2
    omega
  · rw [asciiLower_eq_self h, asciiLower_eq_self h]

/-- The embedded `toLowerCase` is idempotent. -/
theorem lowerStr_idem (s : String) : lowerStr (lowerStr s) = lowerStr s := by
  unfold lowerStr
  simp [String.toList, List.map_map, Function.comp_def, asciiLower_idem]

/-- The alphanumeric test, in code-point form. -/
theorem isAlnumChar_iff {c : Char} :
    isAlnumChar c = true ↔
      ((97 ≤ c.toNat ∧ c.toNat ≤ 122) ∨ (65 ≤ c.toNat ∧ c.toNat ≤ 90) ∨
        (48 ≤ c.toNat ∧ c.toNat ≤ 57)) := by
  unfold isAlnumChar
  simp only [Bool.or_eq_true, Bool.and_eq_true, decide_eq_true_eq]
  rw [or_assoc]
  exact Iff.rfl

/-- The digit test, in code-point form. -/
theorem isDigit_iff {c : Char} :
    c.isDigit = true ↔ (48 ≤ c.toNat ∧ c.toNat ≤ 57) := by
  unfold Char.isDigit
  simp only [Bool.and_eq_true, decide_eq_true_eq]
  exact Iff.rfl

/-- Lowercasing preserves membership in the kept character class. -/
theorem isAlnumChar_asciiLower (c : Char) :
    isAlnumChar (asciiLower c) = isAlnumChar c := by
  by_cases h : 'A' ≤ c ∧ c ≤ 'Z'
  · have ht := asciiLower_toNat_of_upper h.1 h.2
    have h1 : 65 ≤ c.toNat := h.1
    have h2 : c.toNat ≤ 90 := h.2
    have ga : isAlnumChar (asciiLower c) = true :=
      isAlnumChar_iff.mpr (Or.inl (by omega))
    have gc : isAlnumChar c = true :=
      isAlnumChar_iff.mpr (Or.inr (Or.inl (by omega)))
    rw [ga, gc]
  · rw [asciiLower_eq_self h]

/-- Lowercasing preserves digit-ness. -/
theorem isDigit_asciiLower (c : Char) :
    (asciiLower c).isDigit = c.isDigit := by
  by_cases h : 'A' ≤ c ∧ c ≤ 'Z'
  · have ht := asciiLower_toNat_of_upper h.1 h.2
    have h1 : 65 ≤ c.toNat := h.1
    have h2 : c.toNat ≤ 90 := h.2
    have ga : (asciiLower c).isDigit = false := by
      cases hb : (asciiLower c).isDigit
      · rfl
      · exact absurd (isDigit_iff.mp hb) (by omega)
    have gc : c.isDigit = false := by
      cases hb : c.isDigit
      · rfl
      · exact absurd (isDigit_iff.mp hb) (by omega)
    rw [ga, gc]
  · rw [asciiLower_eq_self h]

/-! Claim C2.  Lookups through the import list always pass
`publicOnly = true` to the imported injector. -/

/-- Claim C2: for injectors `a` and `b` where `b`'s import list is `[a]` and
`b` has neither a local entry nor a cached import for the requested name,
while `a` holds a plain (non-factory, non-null) entry for it:
`b.get(n)` yields the not-found sentinel (and leaves the world unchanged)
as long as the key is not in `a`'s public set, and yields `a`'s value (also
caching it in `b`'s import cache) once the key is public in `a`. -/
theorem c2_imported_lookups_public_only (F : Nat) (w : World) (a b : Nat)
    (Ia Ib : Inj) (n : String) (v : Val) (hasH : Bool)
    (hb : getInj? w b = some Ib) (ha : getInj? w a = some Ia)
    (hbreg : aget? Ib.registers (lowerStr n) = none)
    (hbcache : aget? Ib.importCache (lowerStr n) = none)
    (hbimp : Ib.importList = [a])
    (hareg : aget? Ia.registers (lowerStr n) = some v)
    (hfac : isFactoryVal v = false)
    (hvnull : v ≠ Val.vnull)
    (hacache : aget? Ia.importCache (lowerStr n) = none)
    (haimp : Ia.importList = []) :
    (Ia.pub.contains (lowerStr n) = false →
      getOp (F + 4) w b n false hasH = Except.ok (Val.vnull, w))
    ∧ (Ia.pub.contains (lowerStr n) = true →
      getOp (F + 4) w b n false hasH =
        Except.ok (v,
          setInj w b
            { Ib with importCache := aset Ib.importCache (lowerStr n) v })) := by
  have hlow := lowerStr_idem n
  have hfacn := factoryFid?_eq_none hfac
  have hcondB : (ahas Ib.registers (lowerStr n) &&
      (!false || Ib.pub.contains (lowerStr n))) = false := by
    simp [ahas, hbreg]
  refine ⟨fun hpriv => ?_, fun hpub => ?_⟩
  · have hcondA : (ahas Ia.registers (lowerStr (lowerStr n)) &&
        (!true || Ia.pub.contains (lowerStr (lowerStr n)))) = false := by
      simp [ahas, hlow, hareg]
      intro hm
      have h2 : Ia.pub.contains (lowerStr n) = true :=
        List.elem_eq_true_of_mem hm
      rw [hpriv] at h2
      cases h2
    have hA : run (F + 1 + 1) (Req.getR a (lowerStr n) true hasH) w =
        Except.ok (Out.val Val.vnull, w) := by
      rw [getR_fallthrough (F + 1) (lowerStr n) true hasH ha hcondA
        (by rw [hlow]; exact hacache)]
      rw [hlow, haimp, importsR_nil F (lowerStr n) hasH w]
      simp
    have hImp : run (F + 1 + 1 + 1) (Req.importsR (lowerStr n) [a] hasH) w =
        Except.ok (Out.val Val.vnull, w) := by
      rw [importsR_cons_null (F + 1 + 1) (lowerStr n) [] hasH hA]
      exact importsR_nil (F + 1) (lowerStr n) hasH w
    apply getOp_of_run
    rw [show F + 4 = F + 1 + 1 + 1 + 1 from rfl]
    rw [getR_fallthrough (F + 1 + 1 + 1) n false hasH hb hcondB hbcache,
      hbimp, hImp]
    simp
  · have hA : run (F + 1 + 1) (Req.getR a (lowerStr n) true hasH) w =
        Except.ok (Out.val v, w) :=
      getR_local_hit (F + 1) (lowerStr n) true hasH ha
        (by
          simp only [hlow, Bool.not_true, Bool.false_or]
          exact hpub)
        (by rw [hlow]; exact hareg) hfacn
    have hImp : run (F + 1 + 1 + 1) (Req.importsR (lowerStr n) [a] hasH) w =
        Except.ok (Out.val v, w) :=
      importsR_cons_found (F + 1 + 1) (lowerStr n) [] hasH hA hvnull
    apply getOp_of_run
    rw [show F + 4 = F + 1 + 1 + 1 + 1 from rfl]
    rw [getR_fallthrough (F + 1 + 1 + 1) n false hasH hb hcondB hbcache,
      hbimp, hImp]
    simp [hvnull, hb]
    rw [hbimp]

/-- C2 witness world: `a = diFactory('a')`, `b = diFactory('b', [a])`,
`a.register('x').value(5)` kept private.  Indices: a = 0, b = 1. -/
def c2WorldPriv : World :=
  valueOp ((diFactoryOp ((diFactoryOp emptyWorld "a" []).2) "b" [0]).2)
    0 "x" (Val.vnum 5)

/-- C2 witness world after `a.register('x').public()`. -/
def c2WorldPub : World := publicOp c2WorldPriv 0 "x"

/-- The injector record of `b` in both C2 witness worlds. -/
def c2InjB : Inj :=
  { diName := "b", rawName := "b",
    registers := [("bdi", Val.vdi 1), ("di", Val.vdi 1)], pub := [],
    names := ["di"], importList := [0], importCache := [], ctorImports := [0] }

/-- The injector record of `a` in the private C2 witness world. -/
def c2InjA : Inj :=
  { diName := "a", rawName := "a",
    registers := [("adi", Val.vdi 0), ("di", Val.vdi 0),
      ("ax", Val.vnum 5), ("x", Val.vnum 5)],
    pub := [], names := ["di", "x"], importList := [], importCache := [],
    ctorImports := [] }

/-- The injector record of `a` after `public()`. -/
def c2InjApub : Inj :=
  { c2InjA with pub := ["ax", "x"] }

/-- Witness for claim C2 at the concrete worlds: the private lookup through
the import yields null, and after `public()` it yields the value. -/
theorem c2_imported_lookups_public_only_witness :
    getInj? c2WorldPriv 1 = some c2InjB
    ∧ getInj? c2WorldPriv 0 = some c2InjA
    ∧ getInj? c2WorldPub 0 = some c2InjApub
    ∧ aget? c2InjA.registers (lowerStr "x") = some (Val.vnum 5)
    ∧ c2InjA.pub.contains (lowerStr "x") = false
    ∧ c2InjApub.pub.contains (lowerStr "x") = true
    ∧ resVal (getOp (0 + 4) c2WorldPriv 1 "x" false false) =
        Except.ok Val.vnull
    ∧ resVal (getOp (0 + 4) c2WorldPub 1 "x" false false) =
        Except.ok (Val.vnum 5) := by
  refine ⟨rfl, rfl, rfl, rfl, rfl, rfl, ?_, ?_⟩
  · rw [(c2_imported_lookups_public_only 0 c2WorldPriv 0 1 c2InjA c2InjB
      "x" (Val.vnum 5) false rfl rfl rfl rfl rfl rfl rfl (by decide) rfl
      rfl).1 rfl]
    rfl
  · rw [(c2_imported_lookups_public_only 0 c2WorldPub 0 1 c2InjApub c2InjB
      "x" (Val.vnum 5) false rfl rfl rfl rfl rfl rfl rfl (by decide) rfl
      rfl).2 rfl]
    rfl

/-! Claim C10.  Registration normalizes names aggressively while `get` only
lowercases, so raw names containing deletable characters are unreachable
through `get` under the raw spelling. -/

/-- String made from an explicit character list, unfolded. -/
theorem toList_mk (l : List Char) : (String.mk l).toList = l := rfl

/-- Characters of string concatenation. -/
theorem toList_append (s t : String) :
    (s ++ t).toList = s.toList ++ t.toList := by
  simp [String.toList]

/-- The head surviving `dropWhile isDigit` is not a digit. -/
theorem head_dropWhile_isDigit (l : List Char) :
    ∀ c, (l.dropWhile Char.isDigit).head? = some c → c.isDigit = false := by
  induction l with
  | nil => simp
  | cons a as ih =>
    intro c hc
    rw [List.dropWhile_cons] at hc
    by_cases ha : a.isDigit = true
    · rw [if_pos ha] at hc
      exact ih c hc
    · rw [if_neg ha] at hc
      cases hc
      cases hb : a.isDigit
      · rfl
      · exact absurd hb ha

/-- A registry key is `good` when all its characters are in the kept
alphanumeric class and it does not start with a digit.  Every key the
registration path stores is good. -/
def goodChars (l : List Char) : Prop :=
  (∀ c ∈ l, isAlnumChar c = true) ∧
    (∀ c, l.head? = some c → c.isDigit = false)

/-- Normalized names are good keys. -/
theorem goodChars_normalizeName (s : String) :
    goodChars (normalizeName s).toList := by
  constructor
  · intro c hc
    simp only [normalizeName, lowerStr, dropLeadingDigits, keepAlnum,
      toList_mk, List.mem_map] at hc
    obtain ⟨d, hd, rfl⟩ := hc
    rw [isAlnumChar_asciiLower]
    have hmem : d ∈ List.filter isAlnumChar s.toList :=
      (List.dropWhile_sublist _).mem hd
    exact List.of_mem_filter hmem
  · intro c hc
    simp only [normalizeName, lowerStr, dropLeadingDigits, keepAlnum,
      toList_mk, List.head?_map] at hc
    obtain ⟨d, hd, rfl⟩ := Option.map_eq_some'.mp hc
    rw [isDigit_asciiLower]
    exact head_dropWhile_isDigit _ d hd

/-- Good keys are closed under concatenation. -/
theorem goodChars_append {l₁ l₂ : List Char} (h₁ : goodChars l₁)
    (h₂ : goodChars l₂) : goodChars (l₁ ++ l₂) := by
  constructor
  · intro c hc
    rcases List.mem_append.mp hc with h | h
    · exact h₁.1 c h
    · exact h₂.1 c h
  · intro c hc
    cases l₁ with
    | nil => exact h₂.2 c (by simpa using hc)
    | cons a as =>
      simp only [List.cons_append, List.head?_cons, Option.some.injEq] at hc
      subst hc
      exact h₁.2 _ rfl

/-- The self-registration key is good. -/
theorem goodChars_di : goodChars ("di".toList) := by
  refine ⟨by decide, fun c hc => ?_⟩
  cases hc
  rfl

/-- If lowercasing `raw` yields a good key, then normalization deletes
nothing: normalizing equals mere lowercasing. -/
theorem normalizeName_eq_lower_of_goodChars {raw : String}
    (hK : goodChars (lowerStr raw).toList) :
    normalizeName raw = lowerStr raw := by
  obtain ⟨hall, hhead⟩ := hK
  have hall2 : ∀ d ∈ raw.toList, isAlnumChar d = true := by
    intro d hd
    have hmem : asciiLower d ∈ (lowerStr raw).toList := by
      simp only [lowerStr, toList_mk]
      exact List.mem_map_of_mem asciiLower hd
    have := hall (asciiLower d) hmem
    rwa [isAlnumChar_asciiLower] at this
  have hfilter : raw.toList.filter isAlnumChar = raw.toList :=
    List.filter_eq_self.mpr hall2
  have hdrop : raw.toList.dropWhile Char.isDigit = raw.toList := by
    cases hsd : raw.toList with
    | nil => simp
    | cons d ds =>
      rw [List.dropWhile_cons, if_neg]
      have hh : (lowerStr raw).toList.head? = some (asciiLower d) := by
        show (raw.toList.map asciiLower).head? = some (asciiLower d)
        rw [hsd]
        rfl
      have hd := hhead (asciiLower d) hh
      rw [isDigit_asciiLower] at hd
      simp [hd]
  calc normalizeName raw
      = lowerStr (String.mk (raw.toList.filter isAlnumChar |>.dropWhile Char.isDigit)) := rfl
    _ = lowerStr (String.mk (raw.toList.dropWhile Char.isDigit)) := by
        rw [hfilter]
    _ = lowerStr (String.mk raw.toList) := by rw [hdrop]
    _ = lowerStr raw := rfl

/-- Key disequality for claim C10: when normalization deleted a character of
`raw`, no good key can coincide with the merely-lowercased `raw`. -/
theorem goodKey_ne_lower {raw K : String}
    (hdel : normalizeName raw ≠ lowerStr raw)
    (hK : goodChars K.toList) : ¬ K = lowerStr raw := by
  intro h
  subst h
  exact hdel (normalizeName_eq_lower_of_goodChars hK)

/-- World for claim C10: a fresh injector named from `diRaw`, with a single
`register(raw).value(v)`. -/
def c10World (diRaw raw : String) (v : Val) : World :=
  valueOp ((diFactoryOp emptyWorld diRaw []).2) 0 raw v

/-- The registry contents of the C10 world. -/
def c10Regs (diRaw raw : String) (v : Val) : List (String × Val) :=
  aset
    (aset
      (aset (aset [] (normalizeName diRaw ++ "di") (Val.vdi 0)) "di"
        (Val.vdi 0))
      (normalizeName diRaw ++ normalizeName raw) v)
    (normalizeName raw) v

/-- The single injector record of the C10 world. -/
def c10Inj (diRaw raw : String) (v : Val) : Inj :=
  { diName := normalizeName diRaw, rawName := diRaw,
    registers := c10Regs diRaw raw v, pub := [],
    names := addKey ["di"] (normalizeName raw), importList := [],
    importCache := [], ctorImports := [] }

/-- Claim C10: registration normalizes the name (deleting characters outside
the alphanumeric class and a leading digit run, then lowercasing) while
`get` only lowercases.  Hence for every raw name that normalization actually
shrinks (normalizing differs from lowercasing) and every non-factory value:
`get` under the raw spelling misses and returns the sentinel, while `get`
under the normalized spelling returns the registered value; neither lookup
changes any state. -/
theorem c10_normalization_asymmetry (diRaw raw : String) (v : Val)
    (hdel : normalizeName raw ≠ lowerStr raw)
    (hfac : isFactoryVal v = false) :
    getOp 3 (c10World diRaw raw v) 0 raw false false =
        Except.ok (Val.vnull, c10World diRaw raw v)
    ∧ getOp 3 (c10World diRaw raw v) 0 (normalizeName raw) false false =
        Except.ok (v, c10World diRaw raw v) := by
  have hshape : getInj? (c10World diRaw raw v) 0 = some (c10Inj diRaw raw v) :=
    rfl
  have hgn := goodChars_normalizeName raw
  have hgdn := goodChars_normalizeName diRaw
  have hgdi := goodChars_di
  have hgdndi : goodChars ((normalizeName diRaw ++ "di").toList) := by
    rw [toList_append]
    exact goodChars_append hgdn hgdi
  have hgdnn :
      goodChars ((normalizeName diRaw ++ normalizeName raw).toList) := by
    rw [toList_append]
    exact goodChars_append hgdn hgn
  have hr : aget? (c10Regs diRaw raw v) (lowerStr raw) = none := by
    unfold c10Regs
    rw [aget?_aset, if_neg (goodKey_ne_lower hdel hgn),
      aget?_aset, if_neg (goodKey_ne_lower hdel hgdnn),
      aget?_aset, if_neg (goodKey_ne_lower hdel hgdi),
      aget?_aset, if_neg (goodKey_ne_lower hdel hgdndi)]
    rfl
  have hcond : (ahas (c10Inj diRaw raw v).registers (lowerStr raw) &&
      (!false || (c10Inj diRaw raw v).pub.contains (lowerStr raw))) = false := by
    show (ahas (c10Regs diRaw raw v) (lowerStr raw) && _) = false
    simp [ahas, hr]
  have hlow2 : lowerStr (normalizeName raw) = normalizeName raw := by
    unfold normalizeName
    exact lowerStr_idem _
  constructor
  · apply getOp_of_run
    rw [show (3 : Nat) = 2 + 1 from rfl]
    rw [getR_fallthrough 2 raw false false hshape hcond rfl]
    show (match run (1 + 1) (Req.importsR (lowerStr raw) [] false)
        (c10World diRaw raw v) with
      | Except.ok (Out.val dep, w1) =>
        if dep = Val.vnull then Except.ok (Out.val Val.vnull, w1)
        else
          match getInj? w1 0 with
          | some self1 =>
            Except.ok (Out.val dep,
              setInj w1 0
                { self1 with
                  importCache := aset self1.importCache (lowerStr raw) dep })
          | none => Except.ok (Out.val dep, w1)
      | Except.ok (Out.vals _, _) => Except.error Err.outOfFuel
      | Except.error e => Except.error e) =
      Except.ok (Out.val Val.vnull, c10World diRaw raw v)
    rw [importsR_nil 1 (lowerStr raw) false (c10World diRaw raw v)]
    rfl
  · apply getOp_of_run
    rw [show (3 : Nat) = 2 + 1 from rfl]
    apply getR_local_hit 2 (normalizeName raw) false false hshape
    · rfl
    · show aget? (c10Regs diRaw raw v) (lowerStr (normalizeName raw)) = some v
      rw [hlow2]
      unfold c10Regs
      rw [aget?_aset, if_pos rfl]
    · exact factoryFid?_eq_none hfac

/-- Witness for claim C10 at the raw name `a-b` (normalizes to `ab`) in an
injector named `app`, with value 7. -/
theorem c10_normalization_asymmetry_witness :
    normalizeName "a-b" ≠ lowerStr "a-b"
    ∧ isFactoryVal (Val.vnum 7) = false
    ∧ normalizeName "a-b" = "ab"
    ∧ getOp 3 (c10World "app" "a-b" (Val.vnum 7)) 0 "a-b" false false =
        Except.ok (Val.vnull, c10World "app" "a-b" (Val.vnum 7))
    ∧ getOp 3 (c10World "app" "a-b" (Val.vnum 7)) 0 (normalizeName "a-b")
        false false =
        Except.ok (Val.vnum 7, c10World "app" "a-b" (Val.vnum 7)) :=
  ⟨by decide, rfl, by decide,
    (c10_normalization_asymmetry "app" "a-b" (Val.vnum 7) (by decide) rfl).1,
    (c10_normalization_asymmetry "app" "a-b" (Val.vnum 7) (by decide) rfl).2⟩

/-! Claim C3.  The import cache never holds the null sentinel, and a
successful append in `import()` resets it. -/

/-- An injector's import cache is free of the null sentinel. -/
def cacheOkB (i : Inj) : Bool :=
  i.importCache.all (fun p => p.2 != Val.vnull)

/-- Every injector's import cache is free of the null sentinel. -/
def worldCacheOkB (w : World) : Bool :=
  w.injs.all cacheOkB

/-- `List.all` survives a positional update with a satisfying element. -/
theorem all_set {α : Type} (p : α → Bool) (l : List α) (i : Nat) (x : α)
    (hl : l.all p = true) (hx : p x = true) : (l.set i x).all p = true := by
  induction l generalizing i with
  | nil => simp [List.set]
  | cons a as ih =>
    cases i with
    | zero => simp_all [List.set]
    | succ j =>
      simp only [List.all_cons, Bool.and_eq_true] at hl
      rw [show (a :: as).set (j + 1) x = a :: as.set j x from rfl]
      simp [hl.1, ih j hl.2]

/-- `List.all` survives a keyed assignment with a satisfying value. -/
theorem all_aset (p : String × Val → Bool) (m : List (String × Val))
    (k : String) (v : Val) (hm : m.all p = true) (hv : p (k, v) = true) :
    (aset m k v).all p = true := by
  induction m with
  | nil => simp [aset, hv]
  | cons q rest ih =>
    obtain ⟨k', v'⟩ := q
    simp only [List.all_cons, Bool.and_eq_true] at hm
    simp only [aset]
    by_cases h : k' = k
    · simp [h, hv, hm.2]
    · simp [h, hm.1, ih hm.2]

/-- An injector fetched from a cache-clean world is cache-clean. -/
theorem cacheOk_of_getInj {w : World} {i : Nat} {inj : Inj}
    (hw : worldCacheOkB w = true) (h : getInj? w i = some inj) :
    cacheOkB inj = true := by
  have hmem : inj ∈ w.injs := by
    unfold getInj? at h
    exact List.getElem?_mem h
  exact List.all_eq_true.mp hw inj hmem

/-- Replacing an injector by a cache-clean one keeps the world clean. -/
theorem worldCacheOkB_setInj {w : World} {i : Nat} {inj : Inj}
    (hw : worldCacheOkB w = true) (hinj : cacheOkB inj = true) :
    worldCacheOkB (setInj w i inj) = true :=
  all_set cacheOkB w.injs i inj hw hinj

/-- Core invariant of claim C3: no step of the resolution engine ever stores
the null sentinel in any import cache - the only cache write (src/di.js:219)
is guarded by the non-null check. -/
theorem run_preserves_cacheOk :
    ∀ fuel req w o w1, run fuel req w = Except.ok (o, w1) →
      worldCacheOkB w = true → worldCacheOkB w1 = true := by
  intro fuel
  induction fuel with
  | zero =>
    intro req w o w1 h hw
    simp [run] at h
  | succ f ih =>
    intro req w o w1 h hw
    cases req with
    | getR selfId name pOnly hasH =>
      simp only [run] at h
      cases hinj : getInj? w selfId with
      | none =>
        simp only [hinj, Except.ok.injEq, Prod.mk.injEq] at h
        obtain ⟨-, rfl⟩ := h
        exact hw
      | some self =>
        simp only [hinj] at h
        by_cases hc : (ahas self.registers (lowerStr name) &&
            (!pOnly || self.pub.contains (lowerStr name))) = true
        · rw [if_pos hc] at h
          cases hreg : aget? self.registers (lowerStr name) with
          | none =>
            simp only [hreg, Except.ok.injEq, Prod.mk.injEq] at h
            obtain ⟨-, rfl⟩ := h
            exact hw
          | some entry =>
            simp only [hreg] at h
            cases hf : factoryFid? entry with
            | none =>
              simp only [hf, Except.ok.injEq, Prod.mk.injEq] at h
              obtain ⟨-, rfl⟩ := h
              exact hw
            | some fid =>
              simp only [hf] at h
              cases hrec : run f (Req.invokeR selfId fid none hasH) w with
              | error e =>
                rw [hrec] at h
                exact Except.noConfusion h
              | ok p =>
                obtain ⟨o2, w2⟩ := p
                have hw2 := ih _ _ _ _ hrec hw
                cases o2 with
                | vals vs =>
                  simp only [hrec] at h
                  exact Except.noConfusion h
                | val r =>
                  simp only [hrec] at h
                  cases hinj2 : getInj? w2 selfId with
                  | none =>
                    simp only [hinj2, Except.ok.injEq, Prod.mk.injEq] at h
                    obtain ⟨-, rfl⟩ := h
                    exact hw2
                  | some self1 =>
                    simp only [hinj2, Except.ok.injEq, Prod.mk.injEq] at h
                    obtain ⟨-, rfl⟩ := h
                    refine worldCacheOkB_setInj hw2 ?_
                    show cacheOkB self1 = true
                    exact cacheOk_of_getInj hw2 hinj2
        · rw [if_neg hc] at h
          by_cases hch : ahas self.importCache (lowerStr name) = true
          · rw [if_pos hch] at h
            simp only [Except.ok.injEq, Prod.mk.injEq] at h
            obtain ⟨-, rfl⟩ := h
            exact hw
          · rw [if_neg hch] at h
            cases hrec : run f
                (Req.importsR (lowerStr name) self.importList hasH) w with
            | error e =>
              rw [hrec] at h
              exact Except.noConfusion h
            | ok p =>
              obtain ⟨o2, w2⟩ := p
              have hw2 := ih _ _ _ _ hrec hw
              cases o2 with
              | vals vs =>
                simp only [hrec] at h
                exact Except.noConfusion h
              | val dep =>
                simp only [hrec] at h
                by_cases hdep : dep = Val.vnull
                · rw [if_pos hdep] at h
                  simp only [Except.ok.injEq, Prod.mk.injEq] at h
                  obtain ⟨-, rfl⟩ := h
                  exact hw2
                · rw [if_neg hdep] at h
                  cases hinj2 : getInj? w2 selfId with
                  | none =>
                    simp only [hinj2, Except.ok.injEq, Prod.mk.injEq] at h
                    obtain ⟨-, rfl⟩ := h
                    exact hw2
                  | some self1 =>
                    simp only [hinj2, Except.ok.injEq, Prod.mk.injEq] at h
                    obtain ⟨-, rfl⟩ := h
                    refine worldCacheOkB_setInj hw2 ?_
                    show (aset self1.importCache (lowerStr name) dep).all
                      (fun p => p.2 != Val.vnull) = true
                    refine all_aset _ _ _ _ ?_ (by simp [hdep])
                    exact cacheOk_of_getInj hw2 hinj2
    | importsR key ids hasH =>
      cases ids with
      | nil =>
        simp only [run, Except.ok.injEq, Prod.mk.injEq] at h
        obtain ⟨-, rfl⟩ := h
        exact hw
      | cons d rest =>
        simp only [run] at h
        cases hrec : run f (Req.getR d key true hasH) w with
        | error e =>
          rw [hrec] at h
          exact Except.noConfusion h
        | ok p =>
          obtain ⟨o2, w2⟩ := p
          have hw2 := ih _ _ _ _ hrec hw
          cases o2 with
          | vals vs =>
            simp only [hrec] at h
            exact Except.noConfusion h
          | val dep =>
            simp only [hrec] at h
            by_cases hdep : dep = Val.vnull
            · rw [if_pos hdep] at h
              exact ih _ _ _ _ h hw2
            · rw [if_neg hdep] at h
              simp only [Except.ok.injEq, Prod.mk.injEq] at h
              obtain ⟨-, rfl⟩ := h
              exact hw2
    | invokeR selfId fid custom hasH =>
      simp only [run] at h
      cases hfn : w.funcs[fid]? with
      | none =>
        simp only [hfn, Except.ok.injEq, Prod.mk.injEq] at h
        obtain ⟨-, rfl⟩ := h
        exact hw
      | some fn =>
        simp only [hfn] at h
        cases hrec : run f (Req.argsR selfId fn.params custom) w with
        | error e =>
          rw [hrec] at h
          exact Except.noConfusion h
        | ok p =>
          obtain ⟨o2, w2⟩ := p
          have hw2 := ih _ _ _ _ hrec hw
          cases o2 with
          | val r =>
            simp only [hrec] at h
            exact Except.noConfusion h
          | vals injs =>
            simp only [hrec] at h
            by_cases hcont : injs.contains Val.vnull = true
            · rw [if_pos hcont] at h
              cases hasH with
              | true =>
                simp only [handleErrorV, if_pos rfl, Except.ok.injEq,
                  Prod.mk.injEq] at h
                obtain ⟨-, rfl⟩ := h
                exact hw2
              | false =>
                simp only [handleErrorV] at h
                simp at h
            · rw [if_neg hcont] at h
              simp only [Except.ok.injEq, Prod.mk.injEq] at h
              obtain ⟨-, rfl⟩ := h
              exact hw2
    | argsR selfId params custom =>
      cases params with
      | nil =>
        simp only [run, Except.ok.injEq, Prod.mk.injEq] at h
        obtain ⟨-, rfl⟩ := h
        exact hw
      | cons a rest =>
        simp only [run] at h
        cases custom with
        | none =>
          cases hrec : run f (Req.getR selfId a false false) w with
          | error e =>
            rw [hrec] at h
            exact Except.noConfusion h
          | ok p =>
            obtain ⟨o2, w2⟩ := p
            have hw2 := ih _ _ _ _ hrec hw
            cases o2 with
            | vals vs =>
              simp only [hrec] at h
              exact Except.noConfusion h
            | val v =>
              simp only [hrec] at h
              cases hrec2 : run f (Req.argsR selfId rest none) w2 with
              | error e =>
                rw [hrec2] at h
                exact Except.noConfusion h
              | ok q =>
                obtain ⟨o3, w3⟩ := q
                have hw3 := ih _ _ _ _ hrec2 hw2
                cases o3 with
                | val v2 =>
                  simp only [hrec2] at h
                  exact Except.noConfusion h
                | vals vs =>
                  simp only [hrec2, Except.ok.injEq, Prod.mk.injEq] at h
                  obtain ⟨-, rfl⟩ := h
                  exact hw3
        | some c =>
          by_cases hhit : ahas c a = true
          · simp only [hhit, reduceIte] at h
            cases hrec2 : run f (Req.argsR selfId rest (some c)) w with
            | error e =>
              rw [hrec2] at h
              exact Except.noConfusion h
            | ok q =>
              obtain ⟨o3, w3⟩ := q
              have hw3 := ih _ _ _ _ hrec2 hw
              cases o3 with
              | val v2 =>
                simp only [hrec2] at h
                exact Except.noConfusion h
              | vals vs =>
                simp only [hrec2, Except.ok.injEq, Prod.mk.injEq] at h
                obtain ⟨-, rfl⟩ := h
                exact hw3
          · simp only [Bool.not_eq_true] at hhit
            simp only [hhit, Bool.false_eq_true, reduceIte] at h
            cases hrec : run f (Req.getR selfId a false false) w with
            | error e =>
              rw [hrec] at h
              exact Except.noConfusion h
            | ok p =>
              obtain ⟨o2, w2⟩ := p
              have hw2 := ih _ _ _ _ hrec hw
              cases o2 with
              | vals vs =>
                simp only [hrec] at h
                exact Except.noConfusion h
              | val v =>
                simp only [hrec] at h
                cases hrec2 : run f (Req.argsR selfId rest (some c)) w2 with
                | error e =>
                  rw [hrec2] at h
                  exact Except.noConfusion h
                | ok q =>
                  obtain ⟨o3, w3⟩ := q
                  have hw3 := ih _ _ _ _ hrec2 hw2
                  cases o3 with
                  | val v2 =>
                    simp only [hrec2] at h
                    exact Except.noConfusion h
                  | vals vs =>
                    simp only [hrec2, Except.ok.injEq, Prod.mk.injEq] at h
                    obtain ⟨-, rfl⟩ := h
                    exact hw3

/-- Reading back the injector just stored. -/
theorem getInj?_setInj_self {w : World} {i : Nat} {self : Inj} (inj : Inj)
    (h : getInj? w i = some self) :
    getInj? (setInj w i inj) i = some inj := by
  unfold getInj? at h
  have hlt : i < w.injs.length := by
    rcases List.getElem?_eq_some.mp h with ⟨hl, -⟩
    exact hl
  unfold getInj? setInj
  simp [List.getElem?_set_self, hlt]

/-- The record `import()` writes when it appends `d` (src/di.js:155-156). -/
def appended (self : Inj) (d : Nat) : Inj :=
  { self with importList := self.importList ++ [d], importCache := [] }

/-- One `import` step keeps every cache clean (it only ever clears one). -/
theorem importStep_cacheOk {w : World} (selfId d : Nat)
    (hw : worldCacheOkB w = true) :
    worldCacheOkB (importStep w selfId d) = true := by
  unfold importStep
  split
  · split
    · refine worldCacheOkB_setInj hw ?_
      rfl
    · exact hw
  · exact hw

/-- `di.import` keeps every cache clean. -/
theorem importOp_cacheOk {w : World} (selfId : Nat) (ids : List Nat)
    (hw : worldCacheOkB w = true) :
    worldCacheOkB (importOp w selfId ids) = true := by
  induction ids generalizing w with
  | nil => exact hw
  | cons d rest ih =>
    exact ih (importStep_cacheOk selfId d hw)

/-- After `di.import`, the importer either kept its import list and cache
exactly, or its cache has been reset to empty. -/
theorem importOp_list_or_clear {w : World} {selfId : Nat} (ids : List Nat)
    {self : Inj} (hself : getInj? w selfId = some self) :
    ∃ self1, getInj? (importOp w selfId ids) selfId = some self1 ∧
      ((self1.importList = self.importList ∧
        self1.importCache = self.importCache) ∨ self1.importCache = []) := by
  induction ids generalizing w self with
  | nil => exact ⟨self, hself, Or.inl ⟨rfl, rfl⟩⟩
  | cons d rest ih =>
    show ∃ self1,
      getInj? (importOp (importStep w selfId d) selfId rest) selfId =
        some self1 ∧ _
    cases h2 : getInj? w d with
    | none =>
      have hstep : importStep w selfId d = w := by
        unfold importStep
        rw [hself, h2]
      rw [hstep]
      exact ih hself
    | some imp =>
      by_cases hc : (imp.diName != "" && !(self.importList.contains d) &&
          d != selfId) = true
      · have hstep : importStep w selfId d = setInj w selfId (appended self d) := by
          unfold importStep
          simp only [hself, h2, hc, reduceIte]
          rfl
        rw [hstep]
        obtain ⟨self1, h1, hd⟩ :=
          ih (getInj?_setInj_self (appended self d) hself)
        refine ⟨self1, h1, Or.inr ?_⟩
        rcases hd with ⟨-, hcache⟩ | hcache
        · exact hcache
        · exact hcache
      · have hstep : importStep w selfId d = w := by
          unfold importStep
          simp only [Bool.not_eq_true] at hc
          simp only [hself, h2, hc, Bool.false_eq_true, reduceIte]
        rw [hstep]
        exact ih hself

/-- Claim C3: the import cache only ever holds non-null results — `di.get`
(for any fuel, injector and name) preserves the invariant that no cache
contains the null sentinel, as does `di.import` — and any `import()` call
that actually changed the import list leaves the cache reset to empty. -/
theorem c3_cache_nonnull_and_import_reset :
    (∀ fuel w selfId name pOnly hasH v w1,
      getOp fuel w selfId name pOnly hasH = Except.ok (v, w1) →
      worldCacheOkB w = true → worldCacheOkB w1 = true)
    ∧ (∀ w selfId ids, worldCacheOkB w = true →
      worldCacheOkB (importOp w selfId ids) = true)
    ∧ (∀ w selfId ids self self1,
      getInj? w selfId = some self →
      getInj? (importOp w selfId ids) selfId = some self1 →
      self1.importList ≠ self.importList → self1.importCache = []) := by
  refine ⟨?_, ?_, ?_⟩
  · intro fuel w selfId name pOnly hasH v w1 h hw
    unfold getOp at h
    cases hr : run fuel (Req.getR selfId name pOnly hasH) w with
    | error e =>
      rw [hr] at h
      exact Except.noConfusion h
    | ok p =>
      obtain ⟨o, w2⟩ := p
      cases o with
      | vals vs =>
        simp only [hr] at h
        exact Except.noConfusion h
      | val v2 =>
        simp only [hr, Except.ok.injEq, Prod.mk.injEq] at h
        obtain ⟨-, rfl⟩ := h
        exact run_preserves_cacheOk fuel _ w _ w2 hr hw
  · intro w selfId ids hw
    exact importOp_cacheOk selfId ids hw
  · intro w selfId ids self self1 hself h1 hne
    obtain ⟨self2, h2, hd⟩ := importOp_list_or_clear ids hself
    rw [h1] at h2
    injection h2 with h2
    subst h2
    rcases hd with ⟨hl, -⟩ | hcache
    · exact absurd hl hne
    · exact hcache

/-- The world of the C8 scenario before its `import` call (two fresh
injectors `a` and `b`). -/
def c3Base : World :=
  (diFactoryOp ((diFactoryOp emptyWorld "a" []).2) "b" []).2

/-- The record of injector `a` in `c3Base`. -/
def c3InjA : Inj :=
  { diName := "a", rawName := "a",
    registers := [("adi", Val.vdi 0), ("di", Val.vdi 0)], pub := [],
    names := ["di"], importList := [], importCache := [], ctorImports := [] }

/-- Witness for claim C3: a concrete `get` through an import (which caches a
non-null value) preserves the cache invariant, a concrete `import` call
preserves it, and an `import` call that appends leaves the cache empty. -/
theorem c3_cache_nonnull_and_import_reset_witness :
    worldCacheOkB c2WorldPub = true
    ∧ getOp 9 c2WorldPub 1 "x" false false =
        Except.ok (Val.vnum 5,
          resWorld c2WorldPub (getOp 9 c2WorldPub 1 "x" false false))
    ∧ worldCacheOkB
        (resWorld c2WorldPub (getOp 9 c2WorldPub 1 "x" false false)) = true
    ∧ worldCacheOkB (importOp c2WorldPub 1 [0]) = true
    ∧ getInj? c3Base 0 = some c3InjA
    ∧ getInj? (importOp c3Base 0 [1]) 0 =
        some { c3InjA with importList := [1] }
    ∧ ({ c3InjA with importList := [1] } : Inj).importList ≠ c3InjA.importList
    ∧ ({ c3InjA with importList := [1] } : Inj).importCache = [] :=
  ⟨by decide, rfl,
    c3_cache_nonnull_and_import_reset.1 9 c2WorldPub 1 "x" false false
      (Val.vnum 5)
      (resWorld c2WorldPub (getOp 9 c2WorldPub 1 "x" false false)) rfl
      (by decide),
    c3_cache_nonnull_and_import_reset.2.1 c2WorldPub 1 [0] (by decide),
    rfl, rfl, by decide,
    c3_cache_nonnull_and_import_reset.2.2 c3Base 0 [1] c3InjA
      { c3InjA with importList := [1] } rfl rfl (by decide)⟩
